import Mathlib

/-!
Verification of the StarCluster EFS plugin (`starcluster/plugins/efs.py`).

The plugin's core is an access reconciler over the mount targets of an EFS
filesystem (`_authorize_efs` / `_deauthorize_efs`) and a per-node mounter
(`_install_efs_on_node`).  We embed the security-group manipulation and the
command construction shallowly: the AWS service state is the list of mount
targets fetched by `describe_mount_targets`, each carrying its current
security-group list; the remote side effects we reason about (the
`modify_mount_target_security_groups` write-backs and the shell commands run
over ssh) are recorded in explicit traces.
-/

namespace EFS

/-- One mount target of the filesystem, as returned by
`describe_mount_targets` / `describe_mount_target_security_groups`:
its `MountTargetId` and its currently attached `SecurityGroups` list (the
backing service may in principle return duplicates, hence a list).
`fetchOk` models whether the `describe_mount_target_security_groups` call for
this target succeeds; when it is `false` the boto3 call raises and the whole
loop aborts. -/
structure MountTarget where
  mountTargetId : String
  securityGroups : List String
  fetchOk : Bool
  deriving DecidableEq, Repr

/-- A write-back effect against the EFS service: one
`modify_mount_target_security_groups(MountTargetId=..., SecurityGroups=...)`
call. -/
inductive EfsCall where
  | modify (mountTargetId : String) (securityGroups : List String)
  deriving DecidableEq, Repr

/-- Model of Python `list(set(xs))`: every distinct element exactly once.
CPython's set iteration order is unspecified; we fix the last-occurrence
order of `List.dedup`.  All claims about the result are order-independent
(membership, `Nodup`, `toFinset`, counts). -/
def pySet (xs : List String) : List String := xs.dedup

/-- The body of the `_authorize_efs` loop for one target: fetch the groups,
`oldgroups.append(self._new_security_group)`, `newgroups = list(set(oldgroups))`,
and unconditionally write `newgroups` back. Returns the updated target and
the write-back call issued. -/
def authorize_target (sg : String) (t : MountTarget) : MountTarget × EfsCall :=
  let newgroups := pySet (t.securityGroups ++ [sg])
  ({ t with securityGroups := newgroups },
   EfsCall.modify t.mountTargetId newgroups)

/-- `_authorize_efs`: iterate over the fetched mount targets in order,
authorizing each.  If a target's fetch fails the exception propagates:
targets already processed keep their new state, the failing target and all
later ones are untouched, and the error carries the failing target's id.
Result: (final service state, trace of write-backs, optional error). -/
def authorize_efs (sg : String) :
    List MountTarget → List MountTarget × List EfsCall × Option String
  | [] => ([], [], none)
  | t :: rest =>
    if t.fetchOk then
      let r := authorize_efs sg rest
      ((authorize_target sg t).1 :: r.1, (authorize_target sg t).2 :: r.2.1, r.2.2)
    else
      (t :: rest, [], some t.mountTargetId)

/-- The body of the `_deauthorize_efs` loop for one target: fetch the groups,
`groups.remove(self._new_security_group)` (removes the first occurrence,
`ValueError` when absent is caught and logged as a no-op), and write the
mutated list back only when the group was found.  Returns the updated target
and the write-backs issued (one or none). -/
def deauthorize_target (sg : String) (t : MountTarget) : MountTarget × List EfsCall :=
  if sg ∈ t.securityGroups then
    ({ t with securityGroups := t.securityGroups.erase sg },
     [EfsCall.modify t.mountTargetId (t.securityGroups.erase sg)])
  else
    (t, [])

/-- `_deauthorize_efs`: iterate over the fetched mount targets in order,
deauthorizing each; a fetch failure aborts exactly like in `authorize_efs`. -/
def deauthorize_efs (sg : String) :
    List MountTarget → List MountTarget × List EfsCall × Option String
  | [] => ([], [], none)
  | t :: rest =>
    if t.fetchOk then
      let r := deauthorize_efs sg rest
      ((deauthorize_target sg t).1 :: r.1, (deauthorize_target sg t).2 ++ r.2.1, r.2.2)
    else
      (t :: rest, [], some t.mountTargetId)

/-- Outcome of `_install_efs_on_node`: either the target path was already
listed in `/proc/mounts` (the code logs a warning and skips the mount) or the
mount command was executed. -/
inductive MountOutcome where
  | alreadyMounted
  | mounted
  deriving DecidableEq, Repr

/-- A side effect performed on a node over ssh: `makedirs(path, mode)` or
`execute(command)`. -/
inductive NodeCall where
  | makedirs (path : String) (mode : Nat)
  | execute (cmd : String)
  deriving DecidableEq, Repr

/-- The observable state of a node: whether the mount point path exists, the
availability zone reported by `ec2metadata --availability-zone`, and the
lines of `/proc/mounts`. -/
structure NodeState where
  mountPointExists : Bool
  zone : String
  procMounts : List String
  deriving DecidableEq, Repr

/-- `efs_dns = '.'.join([zone, fs_id, 'efs', region, 'amazonaws', 'com'])`
with `region = zone[:-1]` (the zone with its last character removed). -/
def efs_dns (zone fs_id : String) : String :=
  String.intercalate "." [zone, fs_id, "efs", zone.dropRight 1, "amazonaws", "com"]

/-- `cmd = 'mount -t nfs4 -ominorversion=1 %s:/ %s' % (efs_dns, mount_point)`. -/
def mount_cmd (zone fs_id mount_point : String) : String :=
  "mount -t nfs4 -ominorversion=1 " ++ efs_dns zone fs_id ++ ":/ " ++ mount_point

/-- Model of `node.ssh.execute('grep <mount_point> /proc/mounts', ...)`: the
lines of `/proc/mounts` in which the mount-point string occurs.  The grep
pattern here is the configured path, modelled as plain substring occurrence
in each line. -/
def grepLines (pat : String) (lines : List String) : List String :=
  lines.filter (fun line => decide (pat.toList <:+: line.toList))

/-- `_install_efs_on_node`: create the mount point if missing (mode `0777`,
i.e. `511`), query the zone, build the DNS name and mount command, grep
`/proc/mounts` for the mount point, and execute the mount command only when
the grep output is empty.  Returns the outcome and the trace of node calls. -/
def install_efs_on_node (mount_point fs_id : String) (node : NodeState) :
    MountOutcome × List NodeCall :=
  let mkCalls : List NodeCall :=
    if node.mountPointExists then [] else [NodeCall.makedirs mount_point 511]
  let mount_info := grepLines mount_point node.procMounts
  let cmd := mount_cmd node.zone fs_id mount_point
  let baseCalls := mkCalls ++
    [NodeCall.execute "ec2metadata --availability-zone",
     NodeCall.execute ("grep " ++ mount_point ++ " /proc/mounts")]
  if mount_info = [] then
    (MountOutcome.mounted, baseCalls ++ [NodeCall.execute cmd])
  else
    (MountOutcome.alreadyMounted, baseCalls)

/-! ### Basic facts about the per-target operations -/

lemma pySet_nodup (xs : List String) : (pySet xs).Nodup := List.nodup_dedup xs

lemma mem_pySet {a : String} {xs : List String} : a ∈ pySet xs ↔ a ∈ xs :=
  List.mem_dedup

lemma pySet_count (xs : List String) (a : String) :
    (pySet xs).count a = if a ∈ xs then 1 else 0 := List.count_dedup xs a

lemma authorize_target_groups (sg : String) (t : MountTarget) :
    (authorize_target sg t).1.securityGroups = pySet (t.securityGroups ++ [sg]) := rfl

lemma authorize_target_id (sg : String) (t : MountTarget) :
    (authorize_target sg t).1.mountTargetId = t.mountTargetId := rfl

lemma authorize_target_fetchOk (sg : String) (t : MountTarget) :
    (authorize_target sg t).1.fetchOk = t.fetchOk := rfl

lemma authorize_target_toFinset (sg : String) (t : MountTarget) :
    (authorize_target sg t).1.securityGroups.toFinset
      = insert sg t.securityGroups.toFinset := by
  rw [authorize_target_groups]
  ext a
  simp [mem_pySet, or_comm]

lemma authorize_target_count (sg : String) (t : MountTarget) :
    (authorize_target sg t).1.securityGroups.count sg = 1 := by
  rw [authorize_target_groups, pySet_count]
  simp

/-- When every fetch succeeds, `authorize_efs` processes every target in
order, issuing one write-back per target, and reports no error. -/
lemma authorize_efs_ok (sg : String) (ts : List MountTarget)
    (h : ∀ t ∈ ts, t.fetchOk = true) :
    authorize_efs sg ts =
      (ts.map (fun t => (authorize_target sg t).1),
       ts.map (fun t => (authorize_target sg t).2), none) := by
  induction ts with
  | nil => rfl
  | cons t rest ih =>
    have ht : t.fetchOk = true := h t (by simp)
    have hr := ih (fun u hu => h u (by simp [hu]))
    simp [authorize_efs, ht, hr]

/-- When every fetch succeeds, `deauthorize_efs` processes every target in
order and reports no error. -/
lemma deauthorize_efs_ok (sg : String) (ts : List MountTarget)
    (h : ∀ t ∈ ts, t.fetchOk = true) :
    deauthorize_efs sg ts =
      (ts.map (fun t => (deauthorize_target sg t).1),
       (ts.map (fun t => (deauthorize_target sg t).2)).flatten, none) := by
  induction ts with
  | nil => rfl
  | cons t rest ih =>
    have ht : t.fetchOk = true := h t (by simp)
    have hr := ih (fun u hu => h u (by simp [hu]))
    simp [deauthorize_efs, ht, hr]

lemma deauthorize_target_absent {sg : String} {t : MountTarget}
    (h : sg ∉ t.securityGroups) : deauthorize_target sg t = (t, []) := by
  simp [deauthorize_target, h]

/-- C1: for every filesystem id and credential, calling Authorize twice in
sequence with the same credential yields the same final credential set on
every mount target as calling it once, and after the call the credential is
present exactly once per target. -/
theorem C1_authorize_idempotent (sg : String) (ts : List MountTarget)
    (hok : ∀ t ∈ ts, t.fetchOk = true) :
    ((authorize_efs sg (authorize_efs sg ts).1).1).length
        = ((authorize_efs sg ts).1).length ∧
    ∀ (i : Nat) (t1 t2 : MountTarget),
      ((authorize_efs sg ts).1)[i]? = some t1 →
      ((authorize_efs sg (authorize_efs sg ts).1).1)[i]? = some t2 →
      t2.securityGroups.toFinset = t1.securityGroups.toFinset ∧
      t1.securityGroups.count sg = 1 ∧ t2.securityGroups.count sg = 1 := by
  have h1 := authorize_efs_ok sg ts hok
  have hok1 : ∀ t ∈ (authorize_efs sg ts).1, t.fetchOk = true := by
    rw [h1]
    intro t ht
    simp only [List.mem_map] at ht
    obtain ⟨u, hu, rfl⟩ := ht
    rw [authorize_target_fetchOk]
    exact hok u hu
  have h2 := authorize_efs_ok sg _ hok1
  constructor
  · rw [h2, h1]
    simp
  · intro i t1 t2 ht1 ht2
    rw [h1] at ht1
    rw [h2, h1] at ht2
    simp only [List.getElem?_map] at ht1 ht2
    obtain ⟨u, hu, rfl⟩ := Option.map_eq_some'.mp ht1
    rw [hu] at ht2
    simp only [Option.map_some'] at ht2
    obtain rfl := Option.some_injective _ ht2
    refine ⟨?_, authorize_target_count sg u, authorize_target_count sg _⟩
    rw [authorize_target_toFinset, authorize_target_toFinset, Finset.insert_idem]

/-- Witness for C1 at a concrete input: one mount target holding `sg-A`,
authorizing `sg-B` twice. -/
theorem C1_witness :
    (∀ t ∈ ([⟨"mt-1", ["sg-A"], true⟩] : List MountTarget), t.fetchOk = true) ∧
    (((authorize_efs "sg-B" (authorize_efs "sg-B"
          ([⟨"mt-1", ["sg-A"], true⟩] : List MountTarget)).1).1).length
        = ((authorize_efs "sg-B" ([⟨"mt-1", ["sg-A"], true⟩] : List MountTarget)).1).length ∧
     ∀ (i : Nat) (t1 t2 : MountTarget),
      ((authorize_efs "sg-B" ([⟨"mt-1", ["sg-A"], true⟩] : List MountTarget)).1)[i]? = some t1 →
      ((authorize_efs "sg-B" (authorize_efs "sg-B"
          ([⟨"mt-1", ["sg-A"], true⟩] : List MountTarget)).1).1)[i]? = some t2 →
      t2.securityGroups.toFinset = t1.securityGroups.toFinset ∧
      t1.securityGroups.count "sg-B" = 1 ∧ t2.securityGroups.count "sg-B" = 1) :=
  ⟨by decide, C1_authorize_idempotent "sg-B" [⟨"mt-1", ["sg-A"], true⟩] (by decide)⟩

lemma authorize_efs_fst_fetchOk (sg : String) (ts : List MountTarget)
    (hok : ∀ t ∈ ts, t.fetchOk = true) :
    ∀ t ∈ (authorize_efs sg ts).1, t.fetchOk = true := by
  rw [authorize_efs_ok sg ts hok]
  intro t ht
  simp only [List.mem_map] at ht
  obtain ⟨u, hu, rfl⟩ := ht
  rw [authorize_target_fetchOk]
  exact hok u hu

lemma erase_pySet_append (g : List String) (sg : String) (h : sg ∉ g) :
    ((pySet (g ++ [sg])).erase sg).toFinset = g.toFinset := by
  ext a
  by_cases ha : a = sg
  · subst ha
    simp [List.Nodup.mem_erase_iff (pySet_nodup _), h]
  · simp [List.Nodup.mem_erase_iff (pySet_nodup _), ha, mem_pySet]

/-- C2 fails as stated: for a target whose credential set already contains
the credential (here `{sg-A}` and credential `sg-A`), Authorize deduplicates
it to a single occurrence and Deauthorize then removes it entirely, so the
round trip ends with the empty credential set, not the original one. -/
theorem C2_counterexample :
    (deauthorize_efs "sg-A"
        (authorize_efs "sg-A" ([⟨"mt-1", ["sg-A"], true⟩] : List MountTarget)).1).1
      = [⟨"mt-1", [], true⟩] ∧
    ¬ (([] : List String).toFinset = (["sg-A"] : List String).toFinset) := by
  decide

/-- C2 amended: for every mount target whose fetched credential set does not
already contain the credential, calling Authorize with the credential and
then Deauthorize with the same credential restores the target's original
credential set. -/
theorem C2_roundtrip_restores (sg : String) (ts : List MountTarget)
    (hok : ∀ t ∈ ts, t.fetchOk = true)
    (habs : ∀ t ∈ ts, sg ∉ t.securityGroups) :
    ((deauthorize_efs sg (authorize_efs sg ts).1).1).length = ts.length ∧
    ∀ (i : Nat) (t t' : MountTarget),
      ts[i]? = some t →
      ((deauthorize_efs sg (authorize_efs sg ts).1).1)[i]? = some t' →
      t'.securityGroups.toFinset = t.securityGroups.toFinset := by
  have h1 := authorize_efs_ok sg ts hok
  have hok1 := authorize_efs_fst_fetchOk sg ts hok
  have h2 := deauthorize_efs_ok sg _ hok1
  constructor
  · rw [h2, h1]
    simp
  · intro i t t' hi hi'
    rw [h2, h1] at hi'
    simp only [List.getElem?_map, hi, Option.map_some'] at hi'
    obtain rfl := (Option.some_injective _ hi').symm
    have hmem : t ∈ ts := by
      have := List.getElem?_eq_some_iff.mp hi
      obtain ⟨hlt, rfl⟩ := this
      exact List.getElem_mem hlt
    have hsg : sg ∈ pySet (t.securityGroups ++ [sg]) := by
      rw [mem_pySet]
      simp
    simp only [deauthorize_target, authorize_target_groups, authorize_target_id,
      hsg, if_true]
    exact erase_pySet_append t.securityGroups sg (habs t hmem)

/-- Witness for the amended C2 at a concrete input: one target holding
`sg-A`, round-tripping the absent credential `sg-B`. -/
theorem C2_roundtrip_witness :
    (∀ t ∈ ([⟨"mt-1", ["sg-A"], true⟩] : List MountTarget), t.fetchOk = true) ∧
    (∀ t ∈ ([⟨"mt-1", ["sg-A"], true⟩] : List MountTarget),
        "sg-B" ∉ t.securityGroups) ∧
    (((deauthorize_efs "sg-B" (authorize_efs "sg-B"
          ([⟨"mt-1", ["sg-A"], true⟩] : List MountTarget)).1).1).length
        = ([⟨"mt-1", ["sg-A"], true⟩] : List MountTarget).length ∧
     ∀ (i : Nat) (t t' : MountTarget),
      ([⟨"mt-1", ["sg-A"], true⟩] : List MountTarget)[i]? = some t →
      ((deauthorize_efs "sg-B" (authorize_efs "sg-B"
          ([⟨"mt-1", ["sg-A"], true⟩] : List MountTarget)).1).1)[i]? = some t' →
      t'.securityGroups.toFinset = t.securityGroups.toFinset) :=
  ⟨by decide, by decide,
   C2_roundtrip_restores "sg-B" [⟨"mt-1", ["sg-A"], true⟩] (by decide) (by decide)⟩

/-- C3: when every fetch succeeds, Deauthorize succeeds, and every mount
target whose fetched credential set does not contain the credential is left
unchanged with no write-back issued for it (the per-target loop body
produces no `modify` call). -/
theorem C3_deauthorize_absent_noop (sg : String) (ts : List MountTarget)
    (hok : ∀ t ∈ ts, t.fetchOk = true) :
    (deauthorize_efs sg ts).2.2 = none ∧
    ∀ (i : Nat) (t : MountTarget), ts[i]? = some t → sg ∉ t.securityGroups →
      ((deauthorize_efs sg ts).1)[i]? = some t ∧
      (deauthorize_target sg t).2 = [] := by
  have h := deauthorize_efs_ok sg ts hok
  constructor
  · rw [h]
  · intro i t hi habs
    constructor
    · rw [h]
      simp only [List.getElem?_map, hi, Option.map_some']
      rw [deauthorize_target_absent habs]
    · rw [deauthorize_target_absent habs]

/-- Witness for C3 at a concrete input: the credential `sg-B` is absent from
the single target's set `{sg-A}`. -/
theorem C3_witness :
    (∀ t ∈ ([⟨"mt-1", ["sg-A"], true⟩] : List MountTarget), t.fetchOk = true) ∧
    ((deauthorize_efs "sg-B" ([⟨"mt-1", ["sg-A"], true⟩] : List MountTarget)).2.2 = none ∧
     ∀ (i : Nat) (t : MountTarget),
      ([⟨"mt-1", ["sg-A"], true⟩] : List MountTarget)[i]? = some t →
      "sg-B" ∉ t.securityGroups →
      ((deauthorize_efs "sg-B" ([⟨"mt-1", ["sg-A"], true⟩] : List MountTarget)).1)[i]? = some t ∧
      (deauthorize_target "sg-B" t).2 = []) :=
  ⟨by decide, C3_deauthorize_absent_noop "sg-B" [⟨"mt-1", ["sg-A"], true⟩] (by decide)⟩

/-- C4 fails as stated: Deauthorize does not deduplicate the write-back.
With fetched list `[sg-A, sg-A, sg-B]` and credential `sg-B`, the list
written back is `[sg-A, sg-A]`, which still contains a duplicate. -/
theorem C4_counterexample :
    (deauthorize_efs "sg-B"
        ([⟨"mt-1", ["sg-A", "sg-A", "sg-B"], true⟩] : List MountTarget)).2.1
      = [EfsCall.modify "mt-1" ["sg-A", "sg-A"]] ∧
    ¬ (["sg-A", "sg-A"] : List String).Nodup := by
  decide

/-- C4 amended: only Authorize deduplicates with set semantics — its
write-back has no duplicates for every input list; Deauthorize writes back
the fetched list with just the first occurrence of the credential removed,
retaining any pre-existing duplicates. -/
theorem C4_dedup_only_in_authorize (sg : String) (t : MountTarget) :
    (authorize_target sg t).1.securityGroups.Nodup ∧
    (authorize_target sg t).2
      = EfsCall.modify t.mountTargetId (authorize_target sg t).1.securityGroups ∧
    (sg ∈ t.securityGroups →
      (deauthorize_target sg t).2
        = [EfsCall.modify t.mountTargetId (t.securityGroups.erase sg)]) := by
  refine ⟨?_, rfl, ?_⟩
  · rw [authorize_target_groups]
    exact pySet_nodup _
  · intro hsg
    simp [deauthorize_target, hsg]

/-- Witness for the amended C4 at a concrete input: deauthorizing `sg-A`
from `[sg-A, sg-A]` writes back `[sg-A]` — the first occurrence removed, the
duplicate retained. -/
theorem C4_witness :
    ("sg-A" ∈ (⟨"mt-1", ["sg-A", "sg-A"], true⟩ : MountTarget).securityGroups) ∧
    ((authorize_target "sg-A" ⟨"mt-1", ["sg-A", "sg-A"], true⟩).1.securityGroups.Nodup ∧
     (authorize_target "sg-A" ⟨"mt-1", ["sg-A", "sg-A"], true⟩).2
       = EfsCall.modify "mt-1"
           (authorize_target "sg-A" ⟨"mt-1", ["sg-A", "sg-A"], true⟩).1.securityGroups ∧
     ("sg-A" ∈ (⟨"mt-1", ["sg-A", "sg-A"], true⟩ : MountTarget).securityGroups →
       (deauthorize_target "sg-A" ⟨"mt-1", ["sg-A", "sg-A"], true⟩).2
         = [EfsCall.modify "mt-1" ((["sg-A", "sg-A"] : List String).erase "sg-A")])) :=
  ⟨by decide, C4_dedup_only_in_authorize "sg-A" ⟨"mt-1", ["sg-A", "sg-A"], true⟩⟩

/-- C7: if fetching the credential set for some mount target fails during
Authorize, the call fails fast: the surfaced error names that target, the
failing target and every later one are left untouched and get no write-back,
and the targets processed before the failure keep their mutated state. -/
theorem C7_authorize_failfast (sg : String) (pre : List MountTarget)
    (bad : MountTarget) (post : List MountTarget)
    (hpre : ∀ t ∈ pre, t.fetchOk = true) (hbad : bad.fetchOk = false) :
    authorize_efs sg (pre ++ bad :: post) =
      (pre.map (fun t => (authorize_target sg t).1) ++ bad :: post,
       pre.map (fun t => (authorize_target sg t).2),
       some bad.mountTargetId) := by
  induction pre with
  | nil => simp [authorize_efs, hbad]
  | cons t rest ih =>
    have ht : t.fetchOk = true := hpre t (by simp)
    have hr := ih (fun u hu => hpre u (by simp [hu]))
    simp [authorize_efs, ht, hr]

/-- Witness for C7 at a concrete input: the middle of three targets fails to
fetch; the first is mutated, the second and third are untouched, and the
error names the second target. -/
theorem C7_witness :
    (∀ t ∈ ([⟨"mt-0", [], true⟩] : List MountTarget), t.fetchOk = true) ∧
    (⟨"mt-1", ["sg-A"], false⟩ : MountTarget).fetchOk = false ∧
    authorize_efs "sg-B"
        ([⟨"mt-0", [], true⟩] ++ (⟨"mt-1", ["sg-A"], false⟩ : MountTarget) ::
          [⟨"mt-2", ["sg-A"], true⟩]) =
      (([⟨"mt-0", [], true⟩] : List MountTarget).map
          (fun t => (authorize_target "sg-B" t).1) ++
        (⟨"mt-1", ["sg-A"], false⟩ : MountTarget) :: [⟨"mt-2", ["sg-A"], true⟩],
       ([⟨"mt-0", [], true⟩] : List MountTarget).map
          (fun t => (authorize_target "sg-B" t).2),
       some "mt-1") :=
  ⟨by decide, by decide,
   C7_authorize_failfast "sg-B" [⟨"mt-0", [], true⟩] ⟨"mt-1", ["sg-A"], false⟩
     [⟨"mt-2", ["sg-A"], true⟩] (by decide) (by decide)⟩

/-- C8: Deauthorize removes only the given credential: every other
credential present in a target's fetched set is still present afterwards,
whatever the run's outcome. -/
theorem C8_deauthorize_preserves_others (sg : String) (ts : List MountTarget)
    (i : Nat) (t : MountTarget) (x : String)
    (hi : ts[i]? = some t) (hx : x ∈ t.securityGroups) (hne : x ≠ sg) :
    ∃ t' : MountTarget, ((deauthorize_efs sg ts).1)[i]? = some t' ∧
      x ∈ t'.securityGroups := by
  induction ts generalizing i with
  | nil => simp at hi
  | cons u rest ih =>
    by_cases hfe : u.fetchOk = true
    · cases i with
      | zero =>
        simp only [List.getElem?_cons_zero] at hi
        obtain rfl : u = t := Option.some_injective _ hi
        refine ⟨(deauthorize_target sg u).1, ?_, ?_⟩
        · simp [deauthorize_efs, hfe]
        · by_cases hsg : sg ∈ u.securityGroups
          · simp only [deauthorize_target, hsg, if_true]
            exact (List.mem_erase_of_ne hne).mpr hx
          · rw [deauthorize_target_absent hsg]
            exact hx
      | succ n =>
        simp only [List.getElem?_cons_succ] at hi
        obtain ⟨t', ht', hx'⟩ := ih n hi
        refine ⟨t', ?_, hx'⟩
        simp [deauthorize_efs, hfe, ht']
    · refine ⟨t, ?_, hx⟩
      simp only [Bool.not_eq_true] at hfe
      simp [deauthorize_efs, hfe]
      cases i with
      | zero =>
        simp only [List.getElem?_cons_zero] at hi
        obtain rfl : u = t := Option.some_injective _ hi
        simp
      | succ n =>
        simpa using hi

/-- Witness for C8 at a concrete input: deauthorizing `sg-B` keeps the
unrelated credential `sg-A` attached. -/
theorem C8_witness :
    (([⟨"mt-1", ["sg-A", "sg-B"], true⟩] : List MountTarget)[0]?
        = some ⟨"mt-1", ["sg-A", "sg-B"], true⟩) ∧
    ("sg-A" ∈ (⟨"mt-1", ["sg-A", "sg-B"], true⟩ : MountTarget).securityGroups) ∧
    ("sg-A" ≠ "sg-B") ∧
    (∃ t' : MountTarget,
      ((deauthorize_efs "sg-B"
          ([⟨"mt-1", ["sg-A", "sg-B"], true⟩] : List MountTarget)).1)[0]? = some t' ∧
      "sg-A" ∈ t'.securityGroups) :=
  ⟨by decide, by decide, by decide,
   C8_deauthorize_preserves_others "sg-B" [⟨"mt-1", ["sg-A", "sg-B"], true⟩] 0
     ⟨"mt-1", ["sg-A", "sg-B"], true⟩ "sg-A" (by decide) (by decide) (by decide)⟩

/-- C10: when every fetch succeeds, Authorize issues exactly one
credential-set write-back per mount target, unconditionally — even when the
credential was already attached and the written set equals the fetched one —
while Deauthorize issues no write-back for a target whose fetched set lacks
the credential. -/
theorem C10_authorize_always_writes (sg : String) (ts : List MountTarget)
    (hok : ∀ t ∈ ts, t.fetchOk = true) :
    (authorize_efs sg ts).2.1 =
      ts.map (fun t =>
        EfsCall.modify t.mountTargetId (pySet (t.securityGroups ++ [sg]))) ∧
    ∀ t : MountTarget, sg ∉ t.securityGroups → (deauthorize_target sg t).2 = [] := by
  constructor
  · rw [authorize_efs_ok sg ts hok]
    rfl
  · intro t habs
    rw [deauthorize_target_absent habs]

/-- Witness for C10 at a concrete input: the credential `sg-A` is already
attached and the written set equals the fetched set, yet the write-back is
still issued. -/
theorem C10_witness :
    (∀ t ∈ ([⟨"mt-1", ["sg-A"], true⟩] : List MountTarget), t.fetchOk = true) ∧
    ((authorize_efs "sg-A" ([⟨"mt-1", ["sg-A"], true⟩] : List MountTarget)).2.1 =
      ([⟨"mt-1", ["sg-A"], true⟩] : List MountTarget).map (fun t =>
        EfsCall.modify t.mountTargetId (pySet (t.securityGroups ++ ["sg-A"]))) ∧
     ∀ t : MountTarget, "sg-A" ∉ t.securityGroups →
       (deauthorize_target "sg-A" t).2 = []) ∧
    pySet ((["sg-A"] : List String) ++ ["sg-A"]) = ["sg-A"] :=
  ⟨by decide, C10_authorize_always_writes "sg-A" [⟨"mt-1", ["sg-A"], true⟩] (by decide),
   by decide⟩

/-! ### Facts about the node mounter -/

lemma efs_dns_eq (z f : String) :
    efs_dns z f = z ++ "." ++ f ++ ".efs." ++ z.dropRight 1 ++ ".amazonaws.com" := by
  have h : efs_dns z f
      = z ++ "." ++ f ++ "." ++ "efs" ++ "." ++ z.dropRight 1 ++ "." ++
        "amazonaws" ++ "." ++ "com" := rfl
  rw [h]
  apply String.ext
  simp only [String.data_append]
  simp [List.append_assoc]

lemma mount_cmd_eq (z f mp : String) :
    mount_cmd z f mp
      = "mount -t nfs4 -ominorversion=1 " ++ z ++ "." ++ f ++ ".efs."
        ++ z.dropRight 1 ++ ".amazonaws.com:/ " ++ mp := by
  have h : mount_cmd z f mp
      = "mount -t nfs4 -ominorversion=1 " ++ efs_dns z f ++ ":/ " ++ mp := rfl
  rw [h, efs_dns_eq]
  apply String.ext
  simp only [String.data_append]
  simp [List.append_assoc]

lemma meta_ne_mount (z f mp : String) :
    ("ec2metadata --availability-zone" : String) ≠ mount_cmd z f mp := by
  intro h
  have h2 := congrArg (fun s => s.data.head?) h
  simp [mount_cmd, String.data_append] at h2

lemma grepcmd_ne_mount (p z f mp : String) :
    ("grep " ++ p ++ " /proc/mounts" : String) ≠ mount_cmd z f mp := by
  intro h
  have h2 := congrArg (fun s => s.data.head?) h
  simp [mount_cmd, String.data_append] at h2

/-- Each `install_efs_on_node` run executes any given mount command at most
once. -/
lemma count_mount_le_one (z mp f : String) (s : NodeState) :
    List.count (NodeCall.execute (mount_cmd z f mp)) (install_efs_on_node mp f s).2
      ≤ 1 := by
  by_cases hmk : s.mountPointExists <;>
    by_cases hg : grepLines mp s.procMounts = [] <;>
      simp [install_efs_on_node, hmk, hg, List.count_append, List.count_cons,
        meta_ne_mount z f mp, grepcmd_ne_mount mp z f mp] <;>
      split <;> simp

/-- When the grep over `/proc/mounts` returns output, the run executes no
mount command at all. -/
lemma count_mount_already (z mp f : String) (s : NodeState)
    (h : grepLines mp s.procMounts ≠ []) :
    List.count (NodeCall.execute (mount_cmd z f mp)) (install_efs_on_node mp f s).2
      = 0 := by
  by_cases hmk : s.mountPointExists <;>
    simp [install_efs_on_node, hmk, h, List.count_append, List.count_cons,
      meta_ne_mount z f mp, grepcmd_ne_mount mp z f mp]

/-- C5: the issued mount command is exactly
`mount -t nfs4 -ominorversion=1 <zone>.<fsId>.efs.<region>.amazonaws.com:/ <mountPoint>`
with `<region>` the zone minus its last character, and for zone `us-east-1a`
and fsId `fs-1234abcd` the derived endpoint is
`us-east-1a.fs-1234abcd.efs.us-east-1.amazonaws.com`. -/
theorem C5_mount_command_exact (mp f : String) (s : NodeState)
    (h : grepLines mp s.procMounts = []) :
    (install_efs_on_node mp f s).2.getLast? = some (NodeCall.execute
      ("mount -t nfs4 -ominorversion=1 " ++ s.zone ++ "." ++ f ++ ".efs."
        ++ s.zone.dropRight 1 ++ ".amazonaws.com:/ " ++ mp)) ∧
    efs_dns "us-east-1a" "fs-1234abcd"
      = "us-east-1a.fs-1234abcd.efs.us-east-1.amazonaws.com" := by
  constructor
  · have htr : (install_efs_on_node mp f s).2
        = ((if s.mountPointExists then ([] : List NodeCall)
            else [NodeCall.makedirs mp 511]) ++
          [NodeCall.execute "ec2metadata --availability-zone",
           NodeCall.execute ("grep " ++ mp ++ " /proc/mounts")]) ++
          [NodeCall.execute (mount_cmd s.zone f mp)] := by
      simp [install_efs_on_node, h]
    rw [htr, List.getLast?_concat, mount_cmd_eq]
  · rfl

/-- Witness for C5 at a concrete input: empty mount table, zone
`us-east-1a`, filesystem `fs-1234abcd`, mount point `/mnt/myefs`. -/
theorem C5_witness :
    grepLines "/mnt/myefs" (⟨true, "us-east-1a", []⟩ : NodeState).procMounts = [] ∧
    ((install_efs_on_node "/mnt/myefs" "fs-1234abcd"
        ⟨true, "us-east-1a", []⟩).2.getLast? = some (NodeCall.execute
      ("mount -t nfs4 -ominorversion=1 " ++ ("us-east-1a" : String) ++ "." ++
        "fs-1234abcd" ++ ".efs." ++ ("us-east-1a" : String).dropRight 1 ++
        ".amazonaws.com:/ " ++ "/mnt/myefs")) ∧
     efs_dns "us-east-1a" "fs-1234abcd"
      = "us-east-1a.fs-1234abcd.efs.us-east-1.amazonaws.com") :=
  ⟨by decide, C5_mount_command_exact "/mnt/myefs" "fs-1234abcd"
    ⟨true, "us-east-1a", []⟩ (by decide)⟩

/-- C6: a node whose mount-table grep returns output is reported as already
mounted and gets no mount-command execution; consequently, two successive
calls on the same node — where mounting in the first call makes the path
appear in the mount table seen by the second — execute the mount command at
most once in total. -/
theorem C6_ensure_mounted_idempotent (mp f : String) (s1 s2 : NodeState)
    (henv : NodeCall.execute (mount_cmd s1.zone f mp) ∈ (install_efs_on_node mp f s1).2 →
            grepLines mp s2.procMounts ≠ []) :
    (grepLines mp s1.procMounts ≠ [] →
      (install_efs_on_node mp f s1).1 = MountOutcome.alreadyMounted ∧
      NodeCall.execute (mount_cmd s1.zone f mp) ∉ (install_efs_on_node mp f s1).2) ∧
    List.count (NodeCall.execute (mount_cmd s1.zone f mp))
        ((install_efs_on_node mp f s1).2 ++ (install_efs_on_node mp f s2).2) ≤ 1 := by
  constructor
  · intro hg
    exact ⟨by simp [install_efs_on_node, hg],
           List.count_eq_zero.mp (count_mount_already s1.zone mp f s1 hg)⟩
  · rw [List.count_append]
    by_cases hg1 : grepLines mp s1.procMounts = []
    · have hmem : NodeCall.execute (mount_cmd s1.zone f mp)
          ∈ (install_efs_on_node mp f s1).2 := by
        simp [install_efs_on_node, hg1]
      have hg2 := henv hmem
      rw [count_mount_already s1.zone mp f s2 hg2]
      have h1 := count_mount_le_one s1.zone mp f s1
      omega
    · rw [count_mount_already s1.zone mp f s1 hg1]
      have h2 := count_mount_le_one s1.zone mp f s2
      omega

/-- Witness for C6 at a concrete input: the first call mounts, the second
call sees the resulting `/proc/mounts` line and issues no mount. -/
theorem C6_witness :
    (NodeCall.execute (mount_cmd (⟨true, "us-east-1a", []⟩ : NodeState).zone
          "fs-1234abcd" "/mnt/myefs")
        ∈ (install_efs_on_node "/mnt/myefs" "fs-1234abcd"
            ⟨true, "us-east-1a", []⟩).2 →
      grepLines "/mnt/myefs"
        (⟨true, "us-east-1a",
          ["us-east-1a.fs-1234abcd.efs.us-east-1.amazonaws.com:/ /mnt/myefs nfs4 rw 0 0"]⟩
          : NodeState).procMounts ≠ []) ∧
    ((grepLines "/mnt/myefs" (⟨true, "us-east-1a", []⟩ : NodeState).procMounts ≠ [] →
      (install_efs_on_node "/mnt/myefs" "fs-1234abcd" ⟨true, "us-east-1a", []⟩).1
        = MountOutcome.alreadyMounted ∧
      NodeCall.execute (mount_cmd (⟨true, "us-east-1a", []⟩ : NodeState).zone
          "fs-1234abcd" "/mnt/myefs")
        ∉ (install_efs_on_node "/mnt/myefs" "fs-1234abcd" ⟨true, "us-east-1a", []⟩).2) ∧
     List.count (NodeCall.execute (mount_cmd (⟨true, "us-east-1a", []⟩ : NodeState).zone
          "fs-1234abcd" "/mnt/myefs"))
        ((install_efs_on_node "/mnt/myefs" "fs-1234abcd" ⟨true, "us-east-1a", []⟩).2 ++
         (install_efs_on_node "/mnt/myefs" "fs-1234abcd"
            ⟨true, "us-east-1a",
             ["us-east-1a.fs-1234abcd.efs.us-east-1.amazonaws.com:/ /mnt/myefs nfs4 rw 0 0"]⟩).2)
        ≤ 1) :=
  ⟨by decide, C6_ensure_mounted_idempotent "/mnt/myefs" "fs-1234abcd"
    ⟨true, "us-east-1a", []⟩
    ⟨true, "us-east-1a",
     ["us-east-1a.fs-1234abcd.efs.us-east-1.amazonaws.com:/ /mnt/myefs nfs4 rw 0 0"]⟩
    (by decide)⟩

/-- C9: the already-mounted test is a substring match against the mount
table: any line in which the mount-path string occurs anywhere — even as
part of a longer, different path — makes the node count as already mounted
and suppresses the mount command. -/
theorem C9_already_mounted_is_substring_match (mp f : String) (s : NodeState)
    (line : String) (hmem : line ∈ s.procMounts)
    (hsub : mp.toList <:+: line.toList) :
    (install_efs_on_node mp f s).1 = MountOutcome.alreadyMounted ∧
    NodeCall.execute (mount_cmd s.zone f mp) ∉ (install_efs_on_node mp f s).2 := by
  have hg : grepLines mp s.procMounts ≠ [] := by
    have hl : line ∈ grepLines mp s.procMounts := by
      simp only [grepLines, List.mem_filter, decide_eq_true_eq]
      exact ⟨hmem, hsub⟩
    exact List.ne_nil_of_mem hl
  exact ⟨by simp [install_efs_on_node, hg],
         List.count_eq_zero.mp (count_mount_already s.zone mp f s hg)⟩

/-- Witness for C9 at a concrete input: the table lists only the longer,
different path `/mnt/myefs2`, yet `/mnt/myefs` counts as already mounted. -/
theorem C9_witness :
    ("/mnt/myefs2 /mnt/myefs2 nfs4 rw 0 0" : String)
      ∈ (⟨true, "us-east-1a", ["/mnt/myefs2 /mnt/myefs2 nfs4 rw 0 0"]⟩
          : NodeState).procMounts ∧
    ("/mnt/myefs" : String).toList <:+:
      ("/mnt/myefs2 /mnt/myefs2 nfs4 rw 0 0" : String).toList ∧
    ((install_efs_on_node "/mnt/myefs" "fs-1234abcd"
        ⟨true, "us-east-1a", ["/mnt/myefs2 /mnt/myefs2 nfs4 rw 0 0"]⟩).1
      = MountOutcome.alreadyMounted ∧
     NodeCall.execute (mount_cmd
        (⟨true, "us-east-1a", ["/mnt/myefs2 /mnt/myefs2 nfs4 rw 0 0"]⟩
          : NodeState).zone "fs-1234abcd" "/mnt/myefs")
      ∉ (install_efs_on_node "/mnt/myefs" "fs-1234abcd"
          ⟨true, "us-east-1a", ["/mnt/myefs2 /mnt/myefs2 nfs4 rw 0 0"]⟩).2) :=
  ⟨by decide, by decide,
   C9_already_mounted_is_substring_match "/mnt/myefs" "fs-1234abcd"
     ⟨true, "us-east-1a", ["/mnt/myefs2 /mnt/myefs2 nfs4 rw 0 0"]⟩
     "/mnt/myefs2 /mnt/myefs2 nfs4 rw 0 0" (by decide) (by decide)⟩

end EFS
